import Mathlib

set_option maxRecDepth 8192

namespace Bernerspace

/-!
Shallow embedding of the build-and-deploy controller in
`src/manager/main.py` and of the upload tool in `src/manager/upload.py`.

String-valued data is modelled as Lean `String`; the Python standard-library
string operations the code uses (`os.path.basename`, `str.replace`,
`str.lower`, `os.path.normpath`, `str.split`) are embedded below as
executable functions on character lists.
-/

/-- Python `str.replace(pat, repl)` on character lists: replaces
non-overlapping occurrences left to right.  The fuel argument starts at the
length of the string; each step consumes at least one character when `pat` is
nonempty, so the fuel never runs out for the call sites embedded here (the
one source call site is `replace(".tar.gz", "")`, main.py line 146). -/
def replaceAux (pat repl : List Char) : Nat → List Char → List Char
  | _, [] => []
  | 0, s => s
  | fuel + 1, c :: rest =>
    if pat.isPrefixOf (c :: rest) then
      repl ++ replaceAux pat repl fuel (List.drop pat.length (c :: rest))
    else
      c :: replaceAux pat repl fuel rest

/-- Python `s.replace(pat, repl)`. -/
def pyReplace (s pat repl : String) : String :=
  String.mk (replaceAux pat.data repl.data s.data.length s.data)

/-- Python `s.lower()` for the ASCII range (the only range exercised). -/
def pyLower (s : String) : String :=
  String.mk (s.data.map Char.toLower)

/-- Python `os.path.basename(p)` on POSIX: everything after the last slash. -/
def pyBasename (p : String) : String :=
  String.mk ((p.data.reverse.takeWhile (fun c => c != '/')).reverse)

/-- Python `str.split(sep)` for a one-character separator, keeping empty
fields, on character lists. -/
def splitOnChar (sep : Char) : List Char → List (List Char)
  | [] => [[]]
  | c :: rest =>
    match splitOnChar sep rest with
    | [] => [[]]
    | h :: t => if c = sep then [] :: h :: t else (c :: h) :: t

/-- One step of the component scan of CPython `posixpath.normpath`: skips
empty and `.` components; `..` pops the previous component except at the
start of a relative path or after an unresolved `..`. -/
def normStep (initialSlashes : Nat) (acc : List (List Char)) (comp : List Char) :
    List (List Char) :=
  if comp = [] ∨ comp = ['.'] then acc
  else if comp ≠ ['.', '.'] ∨ (initialSlashes = 0 ∧ acc = []) ∨
      (acc ≠ [] ∧ acc.getLast? = some ['.', '.']) then acc ++ [comp]
  else if acc ≠ [] then acc.dropLast
  else acc

/-- Python `os.path.normpath(path)` on POSIX, embedded from CPython
`posixpath.normpath`. -/
def pyNormPath (s : String) : String :=
  if s = "" then "." else
  let cs := s.data
  let initialSlashes : Nat :=
    if cs.take 1 = ['/'] then
      (if cs.take 2 = ['/', '/'] ∧ cs.take 3 ≠ ['/', '/', '/'] then 2 else 1)
    else 0
  let comps := splitOnChar '/' cs
  let newComps := comps.foldl (normStep initialSlashes) []
  let joined := List.intercalate ['/'] newComps
  let out := List.replicate initialSlashes '/' ++ joined
  String.mk (if out = [] then ['.'] else out)

/-- `os.path.normpath(member.name).split(os.sep)` (main.py line 107). -/
def pathParts (name : String) : List String :=
  (splitOnChar '/' (pyNormPath name).data).map String.mk

/-- Suffix test used by `blob.name.endswith('.tar.gz')` (main.py line 135). -/
def strEndsWith (s suf : String) : Bool :=
  suf.data.isSuffixOf s.data

/-- The app name derived in `process_new_tarball` (main.py line 146):
`os.path.basename(blob.name).replace('.tar.gz', '').lower()`. -/
def appNameOfBlob (blobName : String) : String :=
  pyLower (pyReplace (pyBasename blobName) ".tar.gz" "")

/-- The destination image built in `process_new_tarball` (main.py line 162):
`f"{CONTAINER_REGISTRY_URL}/{app_name}:latest"`. -/
def destination_image (registry appName : String) : String :=
  registry ++ "/" ++ appName ++ ":latest"

/-- The build job name from `create_kaniko_job` (main.py line 198):
`f"build-{app_name}-{int(time.time())}"`, with the submission timestamp as a
natural number. -/
def kaniko_job_name (appName : String) (t : Nat) : String :=
  "build-" ++ appName ++ "-" ++ toString t

/-- The resource name derived in `deploy_application` (main.py line 303):
`f"{app_name}-{app_version}"`. -/
def resource_name (appName appVersion : String) : String :=
  appName ++ "-" ++ appVersion

/-! ### Archive inspection (`find_dockerfile_path`, main.py lines 81-124) -/

/-- One entry of the downloaded tarball: its `name` and whether
`member.isfile()` holds. -/
structure TarMember where
  name : String
  isFile : Bool
deriving DecidableEq

/-- The root-level test of main.py lines 96-99:
`(m.name == 'Dockerfile' or m.name == './Dockerfile') and m.isfile()`. -/
def isRootDockerfile (m : TarMember) : Bool :=
  ((m.name == "Dockerfile") || (m.name == "./Dockerfile")) && m.isFile

/-- The per-member subdirectory test of main.py lines 105-111: the normalized
path has exactly two components, the second is `Dockerfile`, and the member is
a regular file; a hit yields the first component as the build context. -/
def subdirHit (m : TarMember) : Option String :=
  match pathParts m.name with
  | [d, f] => if f = "Dockerfile" ∧ m.isFile then some d else none
  | _ => none

/-- The subdirectory scan of main.py lines 105-111: first hit in member
order. -/
def findSubdir : List TarMember → Option String
  | [] => none
  | m :: rest =>
    match subdirHit m with
    | some d => some d
    | none => findSubdir rest

/-- `find_dockerfile_path` (main.py lines 81-124) on the member list of a
readable archive: root `Dockerfile` first (returning `"."`), then exactly one
level of subdirectory, else `none`. -/
def find_dockerfile_path (members : List TarMember) : Option String :=
  if members.any isRootDockerfile then some "."
  else findSubdir members

/-! ### Build job watching (`watch_build_job`, main.py lines 255-273) -/

/-- One response of `read_namespaced_job_status`: either the job status object
(with the truthiness of `status.succeeded` and `status.failed`), or an
`ApiException` carrying its HTTP status code. -/
inductive JobPoll where
  | status (succeeded failed : Bool)
  | apiError (code : Nat)
deriving DecidableEq

/-- `watch_build_job` (main.py lines 255-273) run against a finite trace of
poll responses: returns `some true` on the first succeeded status,
`some false` on the first failed status or on any `ApiException` (including a
404), and `none` when the trace ends while the loop would still be polling. -/
def watch_build_job : List JobPoll → Option Bool
  | [] => none
  | JobPoll.status s f :: rest =>
    if s then some true
    else if f then some false
    else watch_build_job rest
  | JobPoll.apiError _ :: _ => some false

/-! ### Cluster resource store and `deploy_application`
(main.py lines 299-395)

The cluster API server is modelled as three association lists from resource
name to resource body.  `read` is lookup (a miss is the 404 branch), `create`
appends and fails with a conflict when the name exists, `patch` replaces the
stored body and fails with a 404 when the name is absent - the behaviour of
the Kubernetes CRUD calls the code makes. -/

inductive ApiErr where
  | notFound
  | conflict
deriving DecidableEq

instance {ε α : Type} [DecidableEq ε] [DecidableEq α] : DecidableEq (Except ε α) :=
  fun x y =>
    match x, y with
    | Except.ok a, Except.ok b =>
      if h : a = b then Decidable.isTrue (congrArg Except.ok h)
      else Decidable.isFalse (fun hh => h (Except.ok.inj hh))
    | Except.error a, Except.error b =>
      if h : a = b then Decidable.isTrue (congrArg Except.error h)
      else Decidable.isFalse (fun hh => h (Except.error.inj hh))
    | Except.ok _, Except.error _ => Decidable.isFalse (fun hh => Except.noConfusion hh)
    | Except.error _, Except.ok _ => Decidable.isFalse (fun hh => Except.noConfusion hh)

/-- `read_namespaced_*(name, ...)`: the stored body, or a 404 miss. -/
def getRes {α : Type} : List (String × α) → String → Option α
  | [], _ => none
  | p :: rest, n => if p.1 = n then some p.2 else getRes rest n

/-- `create_namespaced_*(body)`: append; a name already present is a
conflict. -/
def createRes {α : Type} (store : List (String × α)) (n : String) (v : α) :
    Except ApiErr (List (String × α)) :=
  match getRes store n with
  | some _ => Except.error ApiErr.conflict
  | none => Except.ok (store ++ [(n, v)])

/-- Replacement of the body stored under `n`, leaving other entries alone. -/
def updEntry {α : Type} (n : String) (v : α) (p : String × α) : String × α :=
  if p.1 = n then (p.1, v) else p

/-- `patch_namespaced_*(name, body)`: replace the stored body; patching an
absent name is a 404. -/
def patchRes {α : Type} (store : List (String × α)) (n : String) (v : α) :
    Except ApiErr (List (String × α)) :=
  match getRes store n with
  | some _ => Except.ok (store.map (updEntry n v))
  | none => Except.error ApiErr.notFound

/-- The read-then-patch-or-create protocol used for the deployment
(main.py lines 314-329) and the ingress (lines 375-390). -/
def upsertRes {α : Type} (store : List (String × α)) (n : String) (v : α) :
    Except ApiErr (List (String × α)) :=
  match getRes store n with
  | some _ => patchRes store n v
  | none => createRes store n v

/-- The read-then-create-if-absent protocol used for the service
(main.py lines 344-355): an existing service is left untouched. -/
def ensureRes {α : Type} (store : List (String × α)) (n : String) (v : α) :
    Except ApiErr (List (String × α)) :=
  match getRes store n with
  | some _ => Except.ok store
  | none => createRes store n v

/-- Modelled from the spec: the rendered `deployment.yaml` manifest.  The
template file is not part of the repository sources; per the spec the
templates substitute the placeholders `APP_NAME`, `APP_VERSION` and
`IMAGE_NAME` textually, and the rendered metadata name is consistent with the
name the reconciler reads by. -/
structure DeploymentManifest where
  name : String
  appName : String
  appVersion : String
  imageName : String
deriving DecidableEq

/-- Modelled from the spec: the rendered `service.yaml` manifest (placeholders
`APP_NAME` and `APP_VERSION`). -/
structure ServiceManifest where
  name : String
  appName : String
  appVersion : String
deriving DecidableEq

/-- Modelled from the spec: the rendered `ingress.yaml` manifest (placeholders
`APP_NAME`, `APP_VERSION` and the routing domain). -/
structure IngressManifest where
  name : String
  appName : String
  appVersion : String
  domain : String
deriving DecidableEq

def renderDeployment (app ver img : String) : DeploymentManifest :=
  ⟨resource_name app ver, app, ver, img⟩

def renderService (app ver : String) : ServiceManifest :=
  ⟨resource_name app ver, app, ver⟩

def renderIngress (app ver dom : String) : IngressManifest :=
  ⟨resource_name app ver ++ "-ingress", app, ver, dom⟩

/-- The declarative resource store of the cluster. -/
structure ClusterState where
  deployments : List (String × DeploymentManifest)
  services : List (String × ServiceManifest)
  ingresses : List (String × IngressManifest)
deriving DecidableEq

def emptyCluster : ClusterState := ⟨[], [], []⟩

/-- `deploy_application(k8s_clients, app_name, app_version, image_name)`
(main.py lines 299-395) with the `DOMAIN_NAME` environment variable as the
`domain` argument: deployment read-then-patch-or-create, service
read-then-create-if-absent, then - unless no domain is configured, which
returns early - ingress read-then-patch-or-create under the name
`{app_name}-{app_version}-ingress`. -/
def deploy_application (s : ClusterState) (app ver img : String)
    (domain : Option String) : Except ApiErr ClusterState :=
  match upsertRes s.deployments (resource_name app ver) (renderDeployment app ver img) with
  | Except.error e => Except.error e
  | Except.ok deps =>
    match ensureRes s.services (resource_name app ver) (renderService app ver) with
    | Except.error e => Except.error e
    | Except.ok svcs =>
      match domain with
      | none =>
        Except.ok { deployments := deps, services := svcs, ingresses := s.ingresses }
      | some d =>
        match upsertRes s.ingresses (resource_name app ver ++ "-ingress")
            (renderIngress app ver d) with
        | Except.error e => Except.error e
        | Except.ok ings =>
          Except.ok { deployments := deps, services := svcs, ingresses := ings }

/-! ### The per-archive pipeline (`process_new_tarball`, main.py lines 143-183)

The pipeline's interactions with the outside world are injected as data: the
result of the Dockerfile search, whether `create_kaniko_job` raises, the
boolean `watch_build_job` returns, and the submission timestamp.  Every other
step of the function is deterministic and embedded directly. -/

/-- A Python exception relevant to the pipeline: the `TypeError` of a call
with the wrong number of arguments, or a `kubernetes.client.ApiException`
raised by a cluster API call. -/
inductive PyErr where
  | typeError
  | apiException
deriving DecidableEq

/-- Number of parameters of `def deploy_application(k8s_clients, app_name,
app_version, image_name)` (main.py line 299); all four are required. -/
def deployParamCount : Nat := 4

/-- Number of arguments at the call site
`deploy_application(k8s_clients, app_name, destination_image)`
(main.py line 171). -/
def deployCallArgCount : Nat := 3

/-- The call `deploy_application(k8s_clients, app_name, destination_image)`
under Python call semantics: binding the positional arguments to the
function's parameters raises `TypeError` before the body runs unless the
counts agree.  When they would agree the body would reconcile against the
cluster; with the mismatched call the cluster is never touched. -/
def callDeployApplication (cluster : ClusterState) (_appName _img : String) :
    Except PyErr ClusterState :=
  if deployCallArgCount = deployParamCount then Except.ok cluster
  else Except.error PyErr.typeError

/-- One submitted Kaniko build job: its name, destination image and context
sub-path (main.py lines 196-253). -/
structure KanikoJob where
  jobName : String
  image : String
  ctxSubPath : String
deriving DecidableEq

/-- The pipeline's injected environment for one archive: the value
`find_dockerfile_path` returns, whether `create_kaniko_job` raises an
`ApiException`, the boolean `watch_build_job` returns, and the submission
timestamp `int(time.time())`. -/
structure BlobEnv where
  findResult : Option String
  createRaises : Bool
  buildOk : Bool
  time : Nat
deriving DecidableEq

/-- What one run of `process_new_tarball` did: the build jobs submitted, the
lines appended to `processed_files.log` by `save_processed_file`, the keys
added to the in-memory `processed_files` set, whether the
"Successfully processed and deployed" branch completed, and the cluster
store afterwards. -/
structure PipelineOutcome where
  jobs : List KanikoJob
  ledgerAppends : List String
  memAdds : List String
  successLogged : Bool
  cluster : ClusterState
deriving DecidableEq

/-- `process_new_tarball(gcs_client, k8s_clients, blob, processed_files)`
(main.py lines 143-183).  Control flow mirrors the source: a failed
Dockerfile search records the key and returns; otherwise the Kaniko job is
submitted (an `ApiException` there falls to the generic handler, which also
records the key); a failed build records the key; a successful build calls
`deploy_application` with three arguments - the resulting `TypeError` is
caught by the generic handler, which records the key. -/
def process_new_tarball (registry : String) (cluster : ClusterState)
    (blobName : String) (e : BlobEnv) : PipelineOutcome :=
  let appName := appNameOfBlob blobName
  match e.findResult with
  | none =>
    { jobs := [], ledgerAppends := [blobName], memAdds := [blobName],
      successLogged := false, cluster := cluster }
  | some ctx =>
    if e.createRaises then
      { jobs := [], ledgerAppends := [blobName], memAdds := [blobName],
        successLogged := false, cluster := cluster }
    else
      let img := destination_image registry appName
      let job : KanikoJob := ⟨kaniko_job_name appName e.time, img, ctx⟩
      if e.buildOk then
        match callDeployApplication cluster appName img with
        | Except.ok c =>
          { jobs := [job], ledgerAppends := [blobName], memAdds := [blobName],
            successLogged := true, cluster := c }
        | Except.error _ =>
          { jobs := [job], ledgerAppends := [blobName], memAdds := [blobName],
            successLogged := false, cluster := cluster }
      else
        { jobs := [job], ledgerAppends := [blobName], memAdds := [blobName],
          successLogged := false, cluster := cluster }

/-! ### The watch loop and the processed-files ledger
(main.py lines 22-34 and 126-141)

`processed_files.log` is modelled as the list of its lines in order;
`load_processed_files` reads it back as a set (membership on the list).  A
discovery cycle is one `list_blobs` result: the blob names in listing order,
each paired with the pipeline environment its processing would see. -/

/-- `load_processed_files()` (main.py lines 24-29): the set of lines of the
log file, as a list queried by membership. -/
def load_processed_files (file : List String) : List String := file

/-- The watcher's state: the ledger file, the in-memory `processed_files`
set, and the cluster store. -/
structure WatchState where
  file : List String
  mem : List String
  cluster : ClusterState
deriving DecidableEq

/-- Handling of one listed blob inside the `for` loop of `watch_gcs_bucket`
(main.py lines 134-137): names not ending in `.tar.gz` or already in
`processed_files` are skipped; otherwise `process_new_tarball` runs, its
`save_processed_file` calls append to the log file and its additions extend
the in-memory set.  The second component lists the keys for which the
pipeline was invoked. -/
def watchStep (registry : String) (s : WatchState) (b : String × BlobEnv) :
    WatchState × List String :=
  if strEndsWith b.1 ".tar.gz" ∧ b.1 ∉ s.mem then
    let o := process_new_tarball registry s.cluster b.1 b.2
    (⟨s.file ++ o.ledgerAppends, s.mem ++ o.memAdds, o.cluster⟩, [b.1])
  else (s, [])

/-- One discovery cycle: the listed blobs in order. -/
def runCycle (registry : String) : WatchState → List (String × BlobEnv) →
    WatchState × List String
  | s, [] => (s, [])
  | s, b :: rest =>
    let r₁ := watchStep registry s b
    let r₂ := runCycle registry r₁.1 rest
    (r₂.1, r₁.2 ++ r₂.2)

/-- The watch loop of `watch_gcs_bucket` (main.py lines 131-141) over a
finite list of discovery cycles. -/
def runCycles (registry : String) : WatchState → List (List (String × BlobEnv)) →
    WatchState × List String
  | s, [] => (s, [])
  | s, c :: rest =>
    let r₁ := runCycle registry s c
    let r₂ := runCycles registry r₁.1 rest
    (r₂.1, r₁.2 ++ r₂.2)

/-- `watch_gcs_bucket`'s startup (main.py line 128): the in-memory set is
loaded from the ledger file; the cluster store is whatever the cluster
holds. -/
def startupState (file : List String) (cluster : ClusterState) : WatchState :=
  ⟨file, load_processed_files file, cluster⟩

/-! ### The upload tool (`upload_to_gcs`, upload.py lines 10-57) -/

/-- The blob name `upload_to_gcs` constructs (upload.py lines 32-39): with a
project id, `f"{project_id}/v{int(time.time())}/{basename}"`; without one,
`f"unassigned/{basename}"`. -/
def upload_blob_name (projectId : Option String) (t : Nat) (filePath : String) :
    String :=
  match projectId with
  | some pid => pid ++ "/v" ++ toString t ++ "/" ++ pyBasename filePath
  | none => "unassigned/" ++ pyBasename filePath

/-- The watcher's listing scope: `list_blobs(GCS_BUCKET_NAME,
prefix="uploads/")` (main.py line 133) lists a blob iff its name starts with
this prefix. -/
def watcherScope : String := "uploads/"

/-- Whether the watcher's `list_blobs` call lists a blob of this name. -/
def inWatcherScope (blobName : String) : Bool :=
  watcherScope.data.isPrefixOf blobName.data

/-! ## Lemmas about the resource store -/

theorem getRes_none_forall {α : Type} {store : List (String × α)} {n : String}
    (h : getRes store n = none) : ∀ p ∈ store, p.1 ≠ n := by
  induction store with
  | nil => intro p hp; cases hp
  | cons q rest ih =>
    intro p hp
    unfold getRes at h
    by_cases hq : q.1 = n
    · simp [hq] at h
    · simp [hq] at h
      rcases List.mem_cons.mp hp with rfl | hp2
      · exact hq
      · exact ih h p hp2

theorem getRes_append_right {α : Type} {store : List (String × α)} {n : String}
    {v : α} (h : getRes store n = none) : getRes (store ++ [(n, v)]) n = some v := by
  induction store with
  | nil => simp [getRes]
  | cons q rest ih =>
    unfold getRes at h ⊢
    by_cases hq : q.1 = n
    · simp [hq] at h
    · simp only [List.cons_append, if_neg hq]
      simp [hq] at h
      exact ih h

theorem map_updEntry_of_none {α : Type} {store : List (String × α)} {n : String}
    (v : α) (h : getRes store n = none) : store.map (updEntry n v) = store := by
  induction store with
  | nil => rfl
  | cons q rest ih =>
    unfold getRes at h
    by_cases hq : q.1 = n
    · simp [hq] at h
    · simp [hq] at h
      simp [updEntry, hq, ih h]

theorem getRes_map_updEntry {α : Type} {store : List (String × α)} {n : String}
    {w : α} (v : α) (h : getRes store n = some w) :
    getRes (store.map (updEntry n v)) n = some v := by
  induction store with
  | nil => cases h
  | cons q rest ih =>
    unfold getRes at h
    by_cases hq : q.1 = n
    · simp [updEntry, getRes, hq]
    · simp [hq] at h
      simp [updEntry, getRes, hq]
      exact ih h

theorem map_updEntry_twice {α : Type} (store : List (String × α)) (n : String)
    (v : α) : (store.map (updEntry n v)).map (updEntry n v) = store.map (updEntry n v) := by
  induction store with
  | nil => rfl
  | cons q rest ih =>
    by_cases hq : q.1 = n <;> simp [updEntry, hq, ih]

theorem keys_map_updEntry {α : Type} (store : List (String × α)) (n : String)
    (v : α) : (store.map (updEntry n v)).map Prod.fst = store.map Prod.fst := by
  induction store with
  | nil => rfl
  | cons q rest ih =>
    by_cases hq : q.1 = n <;> simp [updEntry, hq, ih]

theorem getRes_none_iff_keys {α : Type} {store : List (String × α)} {n : String}
    (h : getRes store n = none) : n ∉ store.map Prod.fst := by
  intro hmem
  rcases List.mem_map.mp hmem with ⟨p, hp, hfst⟩
  exact getRes_none_forall h p hp hfst

/-- The read-then-patch-or-create protocol always succeeds against a fault-free
store, a second identical application is a no-op, and key uniqueness is
preserved. -/
theorem upsertRes_spec {α : Type} (store : List (String × α)) (n : String) (v : α) :
    ∃ t, upsertRes store n v = Except.ok t ∧
      upsertRes t n v = Except.ok t ∧
      ((store.map Prod.fst).Nodup → (t.map Prod.fst).Nodup) := by
  cases hg : getRes store n with
  | some w =>
    refine ⟨store.map (updEntry n v), ?_, ?_, ?_⟩
    · unfold upsertRes patchRes
      rw [hg]
    · have h2 : getRes (store.map (updEntry n v)) n = some v := getRes_map_updEntry v hg
      unfold upsertRes patchRes
      rw [h2, map_updEntry_twice]
    · intro hn
      rw [keys_map_updEntry]
      exact hn
  | none =>
    refine ⟨store ++ [(n, v)], ?_, ?_, ?_⟩
    · unfold upsertRes createRes
      rw [hg]
    · have h2 : getRes (store ++ [(n, v)]) n = some v := getRes_append_right hg
      unfold upsertRes patchRes
      rw [h2]
      have : (store ++ [(n, v)]).map (updEntry n v) = store ++ [(n, v)] := by
        rw [List.map_append, map_updEntry_of_none v hg]
        simp [updEntry]
      rw [this]
    · intro hn
      have hnk : n ∉ store.map Prod.fst := getRes_none_iff_keys hg
      simp [List.nodup_append, hn, hnk]

/-- The read-then-create-if-absent protocol always succeeds, is idempotent,
and preserves key uniqueness. -/
theorem ensureRes_spec {α : Type} (store : List (String × α)) (n : String) (v : α) :
    ∃ t, ensureRes store n v = Except.ok t ∧
      ensureRes t n v = Except.ok t ∧
      ((store.map Prod.fst).Nodup → (t.map Prod.fst).Nodup) := by
  cases hg : getRes store n with
  | some w =>
    refine ⟨store, ?_, ?_, fun hn => hn⟩ <;>
      · unfold ensureRes
        rw [hg]
  | none =>
    refine ⟨store ++ [(n, v)], ?_, ?_, ?_⟩
    · unfold ensureRes createRes
      rw [hg]
    · have h2 : getRes (store ++ [(n, v)]) n = some v := getRes_append_right hg
      unfold ensureRes
      rw [h2]
    · intro hn
      have hnk : n ∉ store.map Prod.fst := getRes_none_iff_keys hg
      simp [List.nodup_append, hn, hnk]

/-- Every resource name is stored at most once. -/
def clusterKeysNodup (s : ClusterState) : Prop :=
  (s.deployments.map Prod.fst).Nodup ∧ (s.services.map Prod.fst).Nodup ∧
    (s.ingresses.map Prod.fst).Nodup

/-- C2: Idempotent reconciliation - from every starting cluster state,
`deploy_application` succeeds, running it a second time with identical inputs
returns the same final state without error, and duplicate resources are never
created (key uniqueness of each store is preserved). -/
theorem c2_idempotent_reconciliation (s : ClusterState) (app ver img : String)
    (domain : Option String) :
    ∃ s₁, deploy_application s app ver img domain = Except.ok s₁ ∧
      deploy_application s₁ app ver img domain = Except.ok s₁ ∧
      (clusterKeysNodup s → clusterKeysNodup s₁) := by
  obtain ⟨deps, hd1, hd2, hdn⟩ :=
    upsertRes_spec s.deployments (resource_name app ver) (renderDeployment app ver img)
  obtain ⟨svcs, hs1, hs2, hsn⟩ :=
    ensureRes_spec s.services (resource_name app ver) (renderService app ver)
  cases domain with
  | none =>
    refine ⟨{ deployments := deps, services := svcs, ingresses := s.ingresses }, ?_, ?_, ?_⟩
    · simp only [deploy_application, hd1, hs1]
    · simp only [deploy_application, hd2, hs2]
    · intro hn
      exact ⟨hdn hn.1, hsn hn.2.1, hn.2.2⟩
  | some d =>
    obtain ⟨ings, hi1, hi2, hin⟩ :=
      upsertRes_spec s.ingresses (resource_name app ver ++ "-ingress")
        (renderIngress app ver d)
    refine ⟨{ deployments := deps, services := svcs, ingresses := ings }, ?_, ?_, ?_⟩
    · simp only [deploy_application, hd1, hs1, hi1]
    · simp only [deploy_application, hd2, hs2, hi2]
    · intro hn
      exact ⟨hdn hn.1, hsn hn.2.1, hin hn.2.2⟩

/-! ## Lemmas about the archive inspector -/

theorem subdirHit_some {m : TarMember} {d : String} (h : subdirHit m = some d) :
    pathParts m.name = [d, "Dockerfile"] ∧ m.isFile = true := by
  unfold subdirHit at h
  split at h
  case h_1 d0 f0 heq =>
    split at h
    case isTrue hc =>
      obtain rfl := Option.some.inj h
      exact ⟨by rw [heq, hc.1], hc.2⟩
    case isFalse => cases h
  case h_2 => cases h

theorem findSubdir_some {members : List TarMember} {d : String}
    (h : findSubdir members = some d) : ∃ m ∈ members, subdirHit m = some d := by
  induction members with
  | nil => cases h
  | cons m rest ih =>
    unfold findSubdir at h
    cases hs : subdirHit m with
    | some d0 =>
      rw [hs] at h
      obtain rfl := Option.some.inj h
      exact ⟨m, List.mem_cons_self m rest, hs⟩
    | none =>
      rw [hs] at h
      obtain ⟨m0, hm0, hhit⟩ := ih h
      exact ⟨m0, List.mem_cons_of_mem m hm0, hhit⟩

/-- C6: Build-file location precedence - whenever the member list holds a
regular file named `Dockerfile` (or `./Dockerfile`) at the archive root and
also a regular `Dockerfile` exactly one level deep, `find_dockerfile_path`
returns the root context `"."`, never the subdirectory. -/
theorem c6_root_precedence (members : List TarMember) (m msub : TarMember)
    (hm : m ∈ members) (hname : m.name = "Dockerfile" ∨ m.name = "./Dockerfile")
    (hfile : m.isFile = true) (hmsub : msub ∈ members) (d : String)
    (hsub : pathParts msub.name = [d, "Dockerfile"]) (hsubfile : msub.isFile = true) :
    find_dockerfile_path members = some "." := by
  unfold find_dockerfile_path
  have hroot : members.any isRootDockerfile = true := by
    refine List.any_eq_true.mpr ⟨m, hm, ?_⟩
    unfold isRootDockerfile
    rcases hname with h | h <;> simp [h, hfile]
  simp [hroot]

/-- Witness for C6 at a concrete archive holding both a root `Dockerfile` and
`web/Dockerfile`. -/
theorem c6_root_precedence_witness :
    find_dockerfile_path
      [TarMember.mk "Dockerfile" true, TarMember.mk "web/Dockerfile" true] = some "." :=
  c6_root_precedence _ (TarMember.mk "Dockerfile" true) (TarMember.mk "web/Dockerfile" true)
    (by decide) (Or.inl rfl) (by decide) (by decide) "web" (by decide) (by decide)

/-- C7 counterexample: archive entries named `dockerfile` at the root and
`web/DOCKERFILE` one level deep - base names equal to the build-instruction
filename under case-insensitive comparison - are not matched at all:
`find_dockerfile_path` returns `none`, not a context path. -/
theorem c7_counterexample :
    find_dockerfile_path
      [TarMember.mk "dockerfile" true, TarMember.mk "web/DOCKERFILE" true] = none := by
  decide

/-- C7 amended: matching is case-sensitive - a context path is returned only
when some regular-file member is literally named `Dockerfile` or
`./Dockerfile` at the root, or has normalized path `[directory, "Dockerfile"]`
one level deep; differently-cased names never match. -/
theorem c7_case_sensitive_match (members : List TarMember) (p : String)
    (h : find_dockerfile_path members = some p) :
    ∃ m ∈ members, m.isFile = true ∧
      (m.name = "Dockerfile" ∨ m.name = "./Dockerfile" ∨
        pathParts m.name = [p, "Dockerfile"]) := by
  unfold find_dockerfile_path at h
  by_cases hroot : members.any isRootDockerfile = true
  · obtain ⟨m, hm, hb⟩ := List.any_eq_true.mp hroot
    unfold isRootDockerfile at hb
    simp only [Bool.and_eq_true, Bool.or_eq_true, beq_iff_eq] at hb
    exact ⟨m, hm, hb.2, Or.inl (hb.1.elim Or.inl fun hh => Or.inr (Or.inl hh)) |>.elim
      (fun hh => hh) fun hh => hh⟩
  · rw [Bool.not_eq_true] at hroot
    rw [hroot] at h
    simp only [Bool.false_eq_true, if_false] at h
    obtain ⟨m, hm, hhit⟩ := findSubdir_some h
    obtain ⟨hparts, hfile⟩ := subdirHit_some hhit
    exact ⟨m, hm, hfile, Or.inr (Or.inr hparts)⟩

/-- Witness for C7 amended at a concrete archive with `app/Dockerfile`. -/
theorem c7_case_sensitive_match_witness :
    ∃ m ∈ [TarMember.mk "app/Dockerfile" true], m.isFile = true ∧
      (m.name = "Dockerfile" ∨ m.name = "./Dockerfile" ∨
        pathParts m.name = ["app", "Dockerfile"]) :=
  c7_case_sensitive_match [TarMember.mk "app/Dockerfile" true] "app" (by decide)

/-! ## The build-job watcher (C5) -/

/-- C5 counterexample: a 404 `ApiException` on the very first poll of a
just-submitted job makes `watch_build_job` return `Failed` immediately - even
though the very next poll of the same trace would report the job succeeded -
while the same trace without the initial 404 returns `Succeeded`.  There is no
retry, backoff or grace period for the not-found condition. -/
theorem c5_counterexample :
    watch_build_job [JobPoll.apiError 404, JobPoll.status true false] = some false ∧
    watch_build_job [JobPoll.status true false] = some true := by
  decide

/-- C5 amended: `watch_build_job` treats every `ApiException` - a 404
not-found included - as an immediate hard failure on the poll that raised it,
with no grace period, regardless of what later polls would report. -/
theorem c5_api_error_fails_immediately (code : Nat) (rest : List JobPoll) :
    watch_build_job (JobPoll.apiError code :: rest) = some false := rfl

/-! ## Lemmas about the per-archive pipeline -/

/-- Every invocation of `process_new_tarball` appends exactly one record for
its key to the ledger file and adds exactly that key to the in-memory set,
whatever the outcome (validation failure, infra exception during job
submission, build failure, or the `TypeError` of the success branch). -/
theorem process_new_tarball_records (registry : String) (cluster : ClusterState)
    (b : String) (e : BlobEnv) :
    (process_new_tarball registry cluster b e).ledgerAppends = [b] ∧
    (process_new_tarball registry cluster b e).memAdds = [b] := by
  rcases e with ⟨find, cr, bo, t⟩
  cases find <;> cases cr <;> cases bo <;>
    simp [process_new_tarball, callDeployApplication, deployCallArgCount, deployParamCount]

/-- C9: the success branch of `process_new_tarball` calls
`deploy_application` with three arguments while the function requires four,
so the call raises `TypeError` before any resource is reconciled; the
exception handler records the archive as processed and the
"Successfully processed and deployed" outcome is unreachable. -/
theorem c9_success_branch_raises (registry : String) (cluster : ClusterState)
    (b ctx : String) (t : Nat) :
    deployCallArgCount ≠ deployParamCount ∧
    callDeployApplication cluster (appNameOfBlob b)
      (destination_image registry (appNameOfBlob b)) = Except.error PyErr.typeError ∧
    (process_new_tarball registry cluster b
      (BlobEnv.mk (some ctx) false true t)).successLogged = false ∧
    (process_new_tarball registry cluster b
      (BlobEnv.mk (some ctx) false true t)).cluster = cluster ∧
    (process_new_tarball registry cluster b
      (BlobEnv.mk (some ctx) false true t)).ledgerAppends = [b] := by
  simp [process_new_tarball, callDeployApplication, deployCallArgCount, deployParamCount]

/-- C4 counterexample: a transient infrastructure error - `create_kaniko_job`
raising an `ApiException` because the cluster API is unreachable - is caught
by the generic handler of `process_new_tarball`, which still appends the
archive to the ledger; no build job reached a terminal outcome, yet the
record is written, contradicting "never recorded to the ledger". -/
theorem c4_counterexample :
    (process_new_tarball "REGISTRY_URL" emptyCluster "uploads/app.tar.gz"
        (BlobEnv.mk (some ".") true false 0)).jobs = [] ∧
    (process_new_tarball "REGISTRY_URL" emptyCluster "uploads/app.tar.gz"
        (BlobEnv.mk (some ".") true false 0)).ledgerAppends = ["uploads/app.tar.gz"] := by
  decide

/-- C4 amended: `process_new_tarball` writes exactly one ledger record for the
archive on every path - terminal outcomes and caught exceptions alike: a
transient infrastructure error during job submission and the `TypeError` of
the success branch are recorded just as validation and build failures are. -/
theorem c4_every_path_records (registry : String) (cluster : ClusterState)
    (b : String) (e : BlobEnv) :
    (process_new_tarball registry cluster b e).ledgerAppends = [b] :=
  (process_new_tarball_records registry cluster b e).1

/-- C8 counterexample: for the archive key `myapp/corr-1/v1/src.tar.gz` with a
root Dockerfile, the submitted job's destination image is
`REGISTRY_URL/src:latest` - derived from the file's base name with a fixed
`latest` tag - and not `REGISTRY_URL/myapp:v1`. -/
theorem c8_counterexample :
    (process_new_tarball "REGISTRY_URL" emptyCluster "myapp/corr-1/v1/src.tar.gz"
        (BlobEnv.mk (some ".") false true 7)).jobs.map KanikoJob.image =
      ["REGISTRY_URL/src:latest"] ∧
    "REGISTRY_URL/src:latest" ≠ "REGISTRY_URL/myapp:v1" := by
  decide

/-- C8 amended: for the archive key `myapp/corr-1/v1/src.tar.gz` with a root
Dockerfile, the pipeline submits exactly one build job, and its destination
image is `{registry}/src:latest`: the app name is the lowercased base name of
the file with `.tar.gz` removed (`src`, not the first path segment `myapp`)
and the tag is always `latest` (never the version segment `v1`). -/
theorem c8_one_job_basename_latest (registry : String) (cluster : ClusterState)
    (t : Nat) :
    (process_new_tarball registry cluster "myapp/corr-1/v1/src.tar.gz"
        (BlobEnv.mk (some ".") false true t)).jobs =
      [KanikoJob.mk (kaniko_job_name "src" t) (destination_image registry "src") "."] := by
  have happ : appNameOfBlob "myapp/corr-1/v1/src.tar.gz" = "src" := by decide
  simp [process_new_tarball, happ, callDeployApplication, deployCallArgCount,
    deployParamCount]

/-! ## Naming (C3) -/

/-- Modelled from the spec: membership in the restricted identifier alphabet
the spec prescribes for descriptor fields - "lowercase alphanumerics and
hyphens, no leading/trailing hyphen".  Used only to compare the spec's
sanitization requirement with what the code computes. -/
def specSanitizedIdentifier (s : String) : Bool :=
  s.data.all (fun c => (c.isLower || c.isDigit) || c == '-') &&
  (s.data.head? != some '-') && (s.data.getLast? != some '-')

/-- The resource name the pipeline would derive for a blob and a version on
any controller run; `startupTime` stands for everything that varies between
process restarts (the clock that does flow into build-job names). -/
def pipeline_resource_name (blobName appVersion : String) (_startupTime : Nat) :
    String :=
  resource_name (appNameOfBlob blobName) appVersion

/-- C3 counterexample: the app name the code derives is not sanitized to the
restricted alphabet the claim states - for the blob `uploads/My_App.tar.gz`
the code keeps the underscore (`my_app`), which is outside "lowercase
alphanumerics and hyphens", and so is the resource name built from it; the
derivation also never reads a correlation id. -/
theorem c3_counterexample :
    appNameOfBlob "uploads/My_App.tar.gz" = "my_app" ∧
    specSanitizedIdentifier "my_app" = false ∧
    resource_name "my_app" "v1" = "my_app-v1" ∧
    specSanitizedIdentifier "my_app-v1" = false := by
  decide

/-- C3 amended: `resource_name` is the pure concatenation
`{app_name}-{app_version}`; it is byte-identical across repeated computations
and across process restarts (independent of the restart-varying clock), and it
is a function of the app name and version alone - the app name being only
lowercased, not sanitized to the spec's restricted alphabet, and no
correlation id entering the derivation. -/
theorem c3_deterministic_unsanitized_name (b v : String) (t₁ t₂ : Nat) :
    pipeline_resource_name b v t₁ = pipeline_resource_name b v t₂ ∧
    pipeline_resource_name b v t₁ = appNameOfBlob b ++ "-" ++ v :=
  ⟨rfl, rfl⟩

/-! ## Lemmas about the watch loop and the ledger (C1) -/

theorem watchStep_spec (registry : String) (s : WatchState) (b : String × BlobEnv) :
    (watchStep registry s b).1.file = s.file ++ (watchStep registry s b).2 ∧
    (watchStep registry s b).1.mem = s.mem ++ (watchStep registry s b).2 ∧
    ∀ k ∈ (watchStep registry s b).2, k ∉ s.mem := by
  by_cases hc : strEndsWith b.1 ".tar.gz" = true ∧ b.1 ∉ s.mem
  · obtain ⟨h1, h2⟩ := process_new_tarball_records registry s.cluster b.1 b.2
    refine ⟨?_, ?_, ?_⟩
    · simp only [watchStep, if_pos hc, h1]
    · simp only [watchStep, if_pos hc, h2]
    · intro k hk
      have hout : (watchStep registry s b).2 = [b.1] := by
        simp only [watchStep, if_pos hc]
      rw [hout] at hk
      rcases List.mem_singleton.mp hk with rfl
      exact hc.2
  · refine ⟨?_, ?_, ?_⟩ <;> simp [watchStep, if_neg hc]

theorem watchStep_out (registry : String) (s : WatchState) (b : String × BlobEnv) :
    (watchStep registry s b).2 = [] ∨ (watchStep registry s b).2 = [b.1] := by
  unfold watchStep
  split
  · right; rfl
  · left; rfl

theorem runCycle_app (registry : String) (cycle : List (String × BlobEnv)) :
    ∀ s : WatchState,
      (runCycle registry s cycle).1.file = s.file ++ (runCycle registry s cycle).2 ∧
      (runCycle registry s cycle).1.mem = s.mem ++ (runCycle registry s cycle).2 := by
  induction cycle with
  | nil => intro s; simp [runCycle]
  | cons b rest ih =>
    intro s
    obtain ⟨hf, hm, _⟩ := watchStep_spec registry s b
    obtain ⟨hf2, hm2⟩ := ih (watchStep registry s b).1
    simp only [runCycle]
    exact ⟨by rw [hf2, hf, List.append_assoc],
      by rw [hm2, hm, List.append_assoc]⟩

theorem runCycle_not_invoked (registry : String) (cycle : List (String × BlobEnv)) :
    ∀ (s : WatchState) (k : String), k ∈ s.mem →
      k ∉ (runCycle registry s cycle).2 := by
  induction cycle with
  | nil => intro s k _; simp [runCycle]
  | cons b rest ih =>
    intro s k hk
    obtain ⟨_, hm, hnew⟩ := watchStep_spec registry s b
    simp only [runCycle]
    intro hmem
    rcases List.mem_append.mp hmem with h1 | h2
    · exact hnew k h1 hk
    · exact ih (watchStep registry s b).1 k
        (by rw [hm]; exact List.mem_append_left _ hk) h2

theorem runCycle_count_le_one (registry : String) (cycle : List (String × BlobEnv)) :
    ∀ (s : WatchState) (k : String), ((runCycle registry s cycle).2).count k ≤ 1 := by
  induction cycle with
  | nil => intro s k; simp [runCycle]
  | cons b rest ih =>
    intro s k
    simp only [runCycle, List.count_append]
    by_cases hk1 : k ∈ (watchStep registry s b).2
    · have hm := (watchStep_spec registry s b).2.1
      have hk2 : k ∈ (watchStep registry s b).1.mem := by
        rw [hm]; exact List.mem_append_right _ hk1
      have h0 : ((runCycle registry (watchStep registry s b).1 rest).2).count k = 0 :=
        List.count_eq_zero.mpr (runCycle_not_invoked registry rest _ k hk2)
      have h1 : ((watchStep registry s b).2).count k ≤ 1 := by
        rcases watchStep_out registry s b with h | h <;> rw [h]
        · simp
        · by_cases hbk : b.1 = k <;> simp [List.count_cons, hbk]
      omega
    · have h1 : ((watchStep registry s b).2).count k = 0 := List.count_eq_zero.mpr hk1
      have h2 := ih (watchStep registry s b).1 k
      omega

theorem runCycles_app (registry : String) (cycles : List (List (String × BlobEnv))) :
    ∀ s : WatchState,
      (runCycles registry s cycles).1.file = s.file ++ (runCycles registry s cycles).2 ∧
      (runCycles registry s cycles).1.mem = s.mem ++ (runCycles registry s cycles).2 := by
  induction cycles with
  | nil => intro s; simp [runCycles]
  | cons c rest ih =>
    intro s
    obtain ⟨hf, hm⟩ := runCycle_app registry c s
    obtain ⟨hf2, hm2⟩ := ih (runCycle registry s c).1
    simp only [runCycles]
    exact ⟨by rw [hf2, hf, List.append_assoc],
      by rw [hm2, hm, List.append_assoc]⟩

theorem runCycles_not_invoked (registry : String)
    (cycles : List (List (String × BlobEnv))) :
    ∀ (s : WatchState) (k : String), k ∈ s.mem →
      k ∉ (runCycles registry s cycles).2 := by
  induction cycles with
  | nil => intro s k _; simp [runCycles]
  | cons c rest ih =>
    intro s k hk
    simp only [runCycles]
    intro hmem
    rcases List.mem_append.mp hmem with h1 | h2
    · exact runCycle_not_invoked registry c s k hk h1
    · have hm := (runCycle_app registry c s).2
      exact ih (runCycle registry s c).1 k
        (by rw [hm]; exact List.mem_append_left _ hk) h2

theorem runCycles_count_le_one (registry : String)
    (cycles : List (List (String × BlobEnv))) :
    ∀ (s : WatchState) (k : String), ((runCycles registry s cycles).2).count k ≤ 1 := by
  induction cycles with
  | nil => intro s k; simp [runCycles]
  | cons c rest ih =>
    intro s k
    simp only [runCycles, List.count_append]
    by_cases hk1 : k ∈ (runCycle registry s c).2
    · have hm := (runCycle_app registry c s).2
      have hk2 : k ∈ (runCycle registry s c).1.mem := by
        rw [hm]; exact List.mem_append_right _ hk1
      have h0 : ((runCycles registry (runCycle registry s c).1 rest).2).count k = 0 :=
        List.count_eq_zero.mpr (runCycles_not_invoked registry rest _ k hk2)
      have h1 := runCycle_count_le_one registry c s k
      omega
    · have h1 : ((runCycle registry s c).2).count k = 0 := List.count_eq_zero.mpr hk1
      have h2 := ih (runCycle registry s c).1 k
      omega

/-- C1: At-most-once processing across two consecutive controller runs with a
restart in between.  Run one starts from ledger file `f`; the restart reloads
the ledger file run one left behind.  (i) A key already in the loaded ledger is
never fed to the pipeline in either run; (ii) across both runs the pipeline is
invoked at most once for any key; (iii) once a key is processed (the pipeline
reached a terminal outcome or caught exception for it), exactly one ledger
record for it exists in the final ledger file. -/
theorem c1_at_most_once_processing (registry₁ registry₂ : String)
    (cl : ClusterState) (f : List String)
    (cycles₁ cycles₂ : List (List (String × BlobEnv))) (key : String) :
    let r₁ := runCycles registry₁ (startupState f cl) cycles₁
    let r₂ := runCycles registry₂ (startupState r₁.1.file r₁.1.cluster) cycles₂
    (key ∈ load_processed_files f → key ∉ r₁.2 ∧ key ∉ r₂.2) ∧
    (r₁.2 ++ r₂.2).count key ≤ 1 ∧
    (key ∈ r₁.2 ++ r₂.2 → (r₂.1.file).count key = 1) := by
  intro r₁ r₂
  have hs₀mem : (startupState f cl).mem = f := rfl
  have hs₀file : (startupState f cl).file = f := rfl
  have h1 := runCycles_app registry₁ cycles₁ (startupState f cl)
  have hfile₁ : r₁.1.file = f ++ r₁.2 := by rw [h1.1, hs₀file]
  have hmem₂ : (startupState r₁.1.file r₁.1.cluster).mem = f ++ r₁.2 := by
    show load_processed_files r₁.1.file = f ++ r₁.2
    rw [hfile₁]; rfl
  have h2 := runCycles_app registry₂ cycles₂ (startupState r₁.1.file r₁.1.cluster)
  have hfile₂ : r₂.1.file = (f ++ r₁.2) ++ r₂.2 := by
    have : (startupState r₁.1.file r₁.1.cluster).file = f ++ r₁.2 := hfile₁
    rw [h2.1, this]
  have hni₁ : key ∈ f → key ∉ r₁.2 := fun hk =>
    runCycles_not_invoked registry₁ cycles₁ (startupState f cl) key (by rw [hs₀mem]; exact hk)
  have hni₂ : key ∈ f ++ r₁.2 → key ∉ r₂.2 := fun hk =>
    runCycles_not_invoked registry₂ cycles₂ _ key (by rw [hmem₂]; exact hk)
  have hle₁ : (r₁.2).count key ≤ 1 :=
    runCycles_count_le_one registry₁ cycles₁ (startupState f cl) key
  have hle₂ : (r₂.2).count key ≤ 1 :=
    runCycles_count_le_one registry₂ cycles₂
      (startupState r₁.1.file r₁.1.cluster) key
  refine ⟨?_, ?_, ?_⟩
  · intro hk
    exact ⟨hni₁ hk, hni₂ (List.mem_append_left _ hk)⟩
  · rw [List.count_append]
    by_cases hk1 : key ∈ r₁.2
    · have h0 : (r₂.2).count key = 0 :=
        List.count_eq_zero.mpr (hni₂ (List.mem_append_right _ hk1))
      omega
    · have h0 : (r₁.2).count key = 0 := List.count_eq_zero.mpr hk1
      omega
  · intro hk
    have hkf : key ∉ f := by
      intro hf0
      rcases List.mem_append.mp hk with h | h
      · exact hni₁ hf0 h
      · exact hni₂ (List.mem_append_left _ hf0) h
    have hcf : f.count key = 0 := List.count_eq_zero.mpr hkf
    have hpos : 1 ≤ (r₁.2).count key + (r₂.2).count key := by
      rcases List.mem_append.mp hk with h | h
      · have : 0 < (r₁.2).count key := List.count_pos_iff.mpr h
        omega
      · have : 0 < (r₂.2).count key := List.count_pos_iff.mpr h
        omega
    have hone : (r₁.2).count key + (r₂.2).count key ≤ 1 := by
      by_cases hk1 : key ∈ r₁.2
      · have h0 : (r₂.2).count key = 0 :=
          List.count_eq_zero.mpr (hni₂ (List.mem_append_right _ hk1))
        omega
      · have h0 : (r₁.2).count key = 0 := List.count_eq_zero.mpr hk1
        omega
    rw [hfile₂, List.count_append, List.count_append, hcf]
    omega

/-! ## Lemmas about the upload tool and the watcher's listing scope (C10) -/

theorem str_data_append (a b : String) : (a ++ b).data = a.data ++ b.data := rfl

theorem str_eq_of_data {a b : String} (h : a.data = b.data) : a = b := by
  cases a
  cases b
  exact congrArg String.mk h

/-- A character list that neither is `uploads` nor starts with `uploads/`
still does not start with `uploads/` after a slash-led tail is appended. -/
theorem uploads_scope_reject (q rest : List Char)
    (hq1 : q ≠ "uploads".data) (hq2 : ¬ ("uploads/".data <+: q)) :
    ¬ ("uploads/".data <+: q ++ '/' :: rest) := by
  intro hp
  have hqa : (q ++ ['/']) <+: q ++ '/' :: rest := by
    refine ⟨rest, ?_⟩
    simp
  rcases List.prefix_or_prefix_of_prefix hp hqa with hcase | hcase
  · rcases List.prefix_concat_iff.mp hcase with hone | htwo
    · apply hq1
      have hdl := congrArg List.dropLast hone
      rw [List.dropLast_concat] at hdl
      rw [← hdl]
      decide
    · exact hq2 htwo
  · obtain ⟨tail, htail⟩ := hcase
    rw [List.append_assoc, List.singleton_append] at htail
    have hu : "uploads/".data = ['u', 'p', 'l', 'o', 'a', 'd', 's', '/'] := by decide
    rw [hu] at htail
    have hlen : q.length + (tail.length + 1) = 8 := by
      have hl := congrArg List.length htail
      simpa using hl
    have hq7 : q.length ≤ 7 := by omega
    obtain ⟨n, hn⟩ : ∃ n, q.length = n := ⟨_, rfl⟩
    have hn7 : n ≤ 7 := hn ▸ hq7
    interval_cases n
    · have hq0 : q = [] := List.eq_nil_of_length_eq_zero hn
      rw [hq0, List.nil_append] at htail
      injection htail with h1 _
      exact absurd h1 (by decide)
    · have hsp : (['u', 'p', 'l', 'o', 'a', 'd', 's', '/'] : List Char) =
          ['u'] ++ ['p', 'l', 'o', 'a', 'd', 's', '/'] := rfl
      rw [hsp] at htail
      obtain ⟨hqe, hte⟩ := List.append_inj htail (by rw [hn]; rfl)
      injection hte with h1 _
      exact absurd h1 (by decide)
    · have hsp : (['u', 'p', 'l', 'o', 'a', 'd', 's', '/'] : List Char) =
          ['u', 'p'] ++ ['l', 'o', 'a', 'd', 's', '/'] := rfl
      rw [hsp] at htail
      obtain ⟨hqe, hte⟩ := List.append_inj htail (by rw [hn]; rfl)
      injection hte with h1 _
      exact absurd h1 (by decide)
    · have hsp : (['u', 'p', 'l', 'o', 'a', 'd', 's', '/'] : List Char) =
          ['u', 'p', 'l'] ++ ['o', 'a', 'd', 's', '/'] := rfl
      rw [hsp] at htail
      obtain ⟨hqe, hte⟩ := List.append_inj htail (by rw [hn]; rfl)
      injection hte with h1 _
      exact absurd h1 (by decide)
    · have hsp : (['u', 'p', 'l', 'o', 'a', 'd', 's', '/'] : List Char) =
          ['u', 'p', 'l', 'o'] ++ ['a', 'd', 's', '/'] := rfl
      rw [hsp] at htail
      obtain ⟨hqe, hte⟩ := List.append_inj htail (by rw [hn]; rfl)
      injection hte with h1 _
      exact absurd h1 (by decide)
    · have hsp : (['u', 'p', 'l', 'o', 'a', 'd', 's', '/'] : List Char) =
          ['u', 'p', 'l', 'o', 'a'] ++ ['d', 's', '/'] := rfl
      rw [hsp] at htail
      obtain ⟨hqe, hte⟩ := List.append_inj htail (by rw [hn]; rfl)
      injection hte with h1 _
      exact absurd h1 (by decide)
    · have hsp : (['u', 'p', 'l', 'o', 'a', 'd', 's', '/'] : List Char) =
          ['u', 'p', 'l', 'o', 'a', 'd'] ++ ['s', '/'] := rfl
      rw [hsp] at htail
      obtain ⟨hqe, hte⟩ := List.append_inj htail (by rw [hn]; rfl)
      injection hte with h1 _
      exact absurd h1 (by decide)
    · have hsp : (['u', 'p', 'l', 'o', 'a', 'd', 's', '/'] : List Char) =
          ['u', 'p', 'l', 'o', 'a', 'd', 's'] ++ ['/'] := rfl
      rw [hsp] at htail
      obtain ⟨hqe, _⟩ := List.append_inj htail (by rw [hn]; rfl)
      exact hq1 (hqe.trans (by decide))

/-- C10 counterexample: the upload tool invoked with `--project-id uploads`
produces the blob name `uploads/v5/ctx.tar.gz`, which the watcher's listing
scope does list and whose name matches the `.tar.gz` filter - so it is not
true that the watcher never discovers a file uploaded through
`upload_to_gcs`. -/
theorem c10_counterexample :
    inWatcherScope (upload_blob_name (some "uploads") 5 "ctx.tar.gz") = true ∧
    strEndsWith (upload_blob_name (some "uploads") 5 "ctx.tar.gz") ".tar.gz" = true := by
  decide

/-- C10 amended: every blob name produced by `upload_to_gcs` falls outside the
watcher's `uploads/` listing scope - so the watcher never discovers it -
except in the one corner where the caller-supplied project id is itself
`uploads` or starts with `uploads/`. -/
theorem c10_upload_outside_watcher_scope (projectId : Option String) (t : Nat)
    (filePath : String)
    (h : ∀ p, projectId = some p → p ≠ "uploads" ∧ ¬ ("uploads/".data <+: p.data)) :
    inWatcherScope (upload_blob_name projectId t filePath) = false := by
  cases projectId with
  | none =>
    unfold inWatcherScope upload_blob_name watcherScope
    rw [Bool.eq_false_iff]
    intro hb
    rw [ List.isPrefixOf_iff_prefix] at hb
    rw [str_data_append] at hb
    have hpre : "uploads/".data <+: "unassigned/".data :=
      (List.isPrefix_append_of_length (by decide)).mp hb
    exact absurd hpre (by decide)
  | some p =>
    obtain ⟨hp1, hp2⟩ := h p rfl
    unfold inWatcherScope upload_blob_name watcherScope
    rw [Bool.eq_false_iff]
    intro hb
    rw [ List.isPrefixOf_iff_prefix] at hb
    have hdata : (p ++ "/v" ++ toString t ++ "/" ++ pyBasename filePath).data =
        p.data ++ '/' :: ('v' :: ((toString t).data ++ '/' :: (pyBasename filePath).data)) := by
      simp only [str_data_append, List.append_assoc]
      rfl
    rw [hdata] at hb
    exact uploads_scope_reject p.data _ (fun hq => hp1 (str_eq_of_data hq)) hp2 hb

/-- Witness for C10 amended: an upload with project id `myproj` lands outside
the watcher's scope. -/
theorem c10_upload_outside_watcher_scope_witness :
    inWatcherScope (upload_blob_name (some "myproj") 99 "app.tar.gz") = false :=
  c10_upload_outside_watcher_scope (some "myproj") 99 "app.tar.gz"
    (fun p hp => by
      cases Option.some.inj hp
      exact ⟨by decide, by decide⟩)

end Bernerspace
